import Mathlib

-- Verification development for the Ontos skills-evaluator.
-- The JavaScript sources are shallowly embedded: strings are lists of
-- characters (ASCII is assumed for case mapping and the \s / \w character
-- classes), JS numbers are modelled by exact rationals, the file system and
-- the network are explicit inputs, and the regular expressions of the code
-- are translated into explicit executable scanners over character lists.

set_option maxRecDepth 8000

namespace Ontos

-- ===========================================================================
-- String primitives (JS string operations over lists of characters)
-- ===========================================================================

abbrev Str := List Char

-- the single-quote character (U+0027), used by the quote-stripping regexes
def sq : Char := Char.ofNat 39

def lowerStr (s : Str) : Str := s.map Char.toLower

def upperStr (s : Str) : Str := s.map Char.toUpper

-- JS \s (ASCII part: space, tab, \n, \r, \v, \f)
def isJsWs (c : Char) : Bool :=
  c == ' ' || c == '\t' || c == '\n' || c == '\r' || c.val == 11 || c.val == 12

-- JS \w character class
def isWordChar (c : Char) : Bool := c.isAlpha || c.isDigit || c == '_'

def isLowerAlpha (c : Char) : Bool := 'a' ≤ c && c ≤ 'z'

-- JS String.prototype.trim
def trimStr (s : Str) : Str :=
  ((s.dropWhile isJsWs).reverse.dropWhile isJsWs).reverse

-- does `needle` occur in `hay` starting at index `i`?
def occursAt (needle hay : Str) (i : Nat) : Bool := needle.isPrefixOf (hay.drop i)

-- JS String.prototype.includes
def isSub (needle hay : Str) : Bool :=
  (List.range (hay.length + 1)).any (occursAt needle hay)

-- index of the first occurrence of `needle` in `hay` at position ≥ start
def findSubFrom (needle hay : Str) (start : Nat) : Option Nat :=
  (List.range (hay.length + 1)).find? (fun i => decide (start ≤ i) && occursAt needle hay i)

def linesOf (s : Str) : List Str := s.splitOn '\n'

-- JS String.prototype.split with a string separator (fuel-driven)
def jsSplitStr (sep : Str) : Nat → Str → List Str
  | 0, s => [s]
  | f + 1, s =>
    match findSubFrom sep s 0 with
    | none => [s]
    | some i => s.take i :: jsSplitStr sep f (s.drop (i + sep.length))

def joinWith (sep : Str) (parts : List Str) : Str := List.intercalate sep parts

-- JS String.prototype.split with a character-class regex such as /[-_]/
def splitOnChars (seps : List Char) : Str → Str → List Str
  | [], cur => [cur.reverse]
  | c :: rest, cur =>
    if seps.contains c then cur.reverse :: splitOnChars seps rest []
    else splitOnChars seps rest (c :: cur)

def jsSplitChars (seps : List Char) (s : Str) : List Str := splitOnChars seps s []

def isQuote (c : Char) : Bool := c == '"' || c == sq

-- value.replace(/^["']|["']$/g, ''): strip one leading and one trailing quote
def stripQuotes (v : Str) : Str :=
  let v1 := match v with
    | [] => ([] : Str)
    | c :: rest => if isQuote c then rest else c :: rest
  match v1.getLast? with
  | some c => if isQuote c then v1.dropLast else v1
  | none => v1

-- ===========================================================================
-- Frontmatter maps (JS objects: string keys, insertion order, last write wins)
-- ===========================================================================

abbrev Fm := List (Str × Str)

def setKey (fm : Fm) (k v : Str) : Fm :=
  match fm with
  | [] => [(k, v)]
  | (k', v') :: rest => if k' = k then (k, v) :: rest else (k', v') :: setKey rest k v

def getKey (fm : Fm) (k : Str) : Option Str :=
  (fm.find? (fun p => p.1 == k)).map Prod.snd

def kName : Str := "name".toList
def kDescription : Str := "description".toList

-- JS truthiness of an object field holding a string (absent or '' is falsy)
def truthy (v : Option Str) : Bool :=
  match v with
  | some s => !s.isEmpty
  | none => false

-- ===========================================================================
-- Smoke-test parser (eval.js parseSkill): frontmatter-block scanning
-- ===========================================================================

-- the regex /^---\n([\s\S]*?)\n---/gm of parseSkill:
-- a block opens with "---\n" at a line start and closes at the earliest
-- following "\n---"; scanning resumes after the end of each match.

def openDelim : Str := "---\n".toList
def closeDelim : Str := "\n---".toList

def lineStartB (content : Str) (p : Nat) : Bool :=
  p == 0 || (content[p-1]? == some '\n')

def openAt (content : Str) (p : Nat) : Bool :=
  lineStartB content p && occursAt openDelim content p

def findClose (content : Str) (start : Nat) : Option Nat :=
  (List.range content.length).find? (fun k => decide (start ≤ k) && occursAt closeDelim content k)

-- all matches of the frontmatter regex, as (start, end) index pairs
def scanBlocks (content : Str) : Nat → Nat → List (Nat × Nat)
  | 0, _ => []
  | f + 1, p =>
    if content.length ≤ p then []
    else if openAt content p then
      match findClose content (p + 4) with
      | some k => (p, k + 4) :: scanBlocks content f (k + 4)
      | none => scanBlocks content f (p + 1)
    else scanBlocks content f (p + 1)

-- the captured group match[1] of a block: the text between "---\n" and "\n---"
def blockInner (content : Str) (se : Nat × Nat) : Str :=
  (content.drop (se.1 + 4)).take (se.2 - 4 - (se.1 + 4))

-- the key: value capture loop of parseSkill (quote strip, list items skipped)
def skillFmOfBlock (blockText : Str) : Fm :=
  (linesOf (trimStr blockText)).foldl
    (fun fm line =>
      match line.findIdx? (fun c => c == ':') with
      | some i =>
        if 0 < i then
          let key := trimStr (line.take i)
          let value := stripQuotes (trimStr (line.drop (i + 1)))
          if value.isEmpty then fm
          else if value.headD ' ' = '-' then fm
          else setKey fm key value
        else fm
      | none => fm)
    []

def blocksOf (content : Str) : List (Nat × Nat) :=
  scanBlocks content (content.length + 1) 0

def fmsOf (content : Str) : List Fm :=
  (blocksOf content).map (fun se => skillFmOfBlock (blockInner content se))

def descLen (fm : Fm) : Nat := ((getKey fm kDescription).getD []).length

-- the best-frontmatter selection loop: strictly longer description wins
def pickBestAux : List Fm → Fm → Nat → Fm × Nat
  | [], best, bestLen => (best, bestLen)
  | fm :: rest, best, bestLen =>
    if bestLen < descLen fm then pickBestAux rest fm (descLen fm)
    else pickBestAux rest best bestLen

def selectedFm (content : Str) : Fm := (pickBestAux (fmsOf content) [] 0).1

inductive ParseOut where
  | errNoFrontmatter : ParseOut
  | errMissingDescription (name : Str) : ParseOut
  | ok (name description body : Str) (frontmatter : Fm) : ParseOut
deriving DecidableEq

-- the name validation of parseSkill: bestFrontmatter.name || path.basename(skillPath)
def parsedName (baseName content : Str) : Str :=
  match getKey (selectedFm content) kName with
  | some n => if n.isEmpty then baseName else n
  | none => baseName

-- body of parseSkill: everything after the last frontmatter block, trimmed
def parsedBody (content : Str) : Str :=
  trimStr (content.drop ((((blocksOf content).getLast?).map Prod.snd).getD 0))

-- eval.js parseSkill on the file's content (file existence and the hint
-- extraction, which does not affect name/description/body or the errors,
-- are outside this model; `baseName` is path.basename(skillPath))
def parseSkillContent (baseName content : Str) : ParseOut :=
  if (blocksOf content).isEmpty then .errNoFrontmatter
  else if descLen (selectedFm content) < 10 then
    .errMissingDescription (parsedName baseName content)
  else
    .ok (parsedName baseName content) ((getKey (selectedFm content) kDescription).getD [])
      (parsedBody content) (selectedFm content)

def ParseOut.isFailure : ParseOut → Bool
  | .ok .. => false
  | _ => true

def ParseOut.nameOf : ParseOut → Option Str
  | .errNoFrontmatter => none
  | .errMissingDescription n => some n
  | .ok n _ _ _ => some n

-- ===========================================================================
-- Static scoring engine (quick_eval.js): frontmatter parser
-- ===========================================================================

def fm3 : Str := "---".toList

-- one line of the simple YAML loop of quick_eval's parseFrontmatter
def qeFmLineFold (fm : Fm) (line : Str) : Fm :=
  let trimmed := trimStr line
  if trimmed.isEmpty then fm
  else if trimmed.headD ' ' = '#' then fm
  else
    match trimmed.findIdx? (fun c => c == ':') with
    | some i =>
      if 0 < i then
        setKey fm (trimStr (trimmed.take i)) (stripQuotes (trimStr (trimmed.drop (i + 1))))
      else fm
    | none => fm

def qeFmText (text : Str) : Fm := (linesOf text).foldl qeFmLineFold []

-- quick_eval.js parseFrontmatter: content.split('---'), parts[1] is the
-- frontmatter, the rest (re-joined) is the body; on error the body is the
-- whole content.  Issue records do not influence scores and are not modelled.
def parseFrontmatter (content : Str) : Option Fm × Str :=
  if !(fm3.isPrefixOf content) then (none, content)
  else
    let parts := jsSplitStr fm3 (content.length + 1) content
    if parts.length < 3 then (none, content)
    else
      let fmText := trimStr (parts.getD 1 [])
      let body := trimStr (joinWith fm3 (parts.drop 2))
      (some (qeFmText fmText), body)

-- ===========================================================================
-- Static scoring engine: the file-system facts the checkers consult
-- ===========================================================================

structure FsInfo where
  skillMdExists : Bool
  scriptsDirExists : Bool
  referencesDirExists : Bool
  assetsDirExists : Bool
  -- number of non-hidden entries of the scripts/ directory
  scriptsCount : Nat
deriving DecidableEq

-- ===========================================================================
-- Static scoring engine: checkStructure
-- ===========================================================================

def allowedFields : List Str := ["name", "description", "license", "tags"].map String.toList

def checkStructure (fsi : FsInfo) (fm? : Option Fm) : ℚ :=
  if !fsi.skillMdExists then 0
  else
    match fm? with
    | none => 0
    | some fm =>
      let d1 : ℚ := if truthy (getKey fm kName) then 0 else 0.3
      let d2 : ℚ := if truthy (getKey fm kDescription) then 0 else 0.3
      let extraCount : Nat := (fm.filter (fun p => !allowedFields.contains p.1)).length
      max 0 (1 - (d1 + d2 + 0.05 * (extraCount : ℚ)))

-- ===========================================================================
-- Static scoring engine: checkTriggers
-- ===========================================================================

def usageKeywords : List Str :=
  ["use when", "use for", "triggers", "invoke", "activate", "call this"].map String.toList

-- /##?\s*(word…)/i at position i of the body
def headingAt (words : List Str) (body : Str) (i : Nat) : Bool :=
  (body[i]? == some '#') &&
  (let j := if body[i+1]? == some '#' then i + 2 else i + 1
   let rest := (lowerStr body).drop j
   let ws := rest.takeWhile isJsWs
   words.any (fun w => w.isPrefixOf (rest.drop ws.length)))

def headingSomewhere (words : List Str) (body : Str) : Bool :=
  (List.range (body.length + 1)).any (headingAt words body)

-- /\*.*trigger.*\*/i confined to one line (the dot does not cross newlines)
def starTriggerLine (l : Str) : Bool :=
  match findSubFrom ['*'] l 0 with
  | none => false
  | some a =>
    match findSubFrom "trigger".toList (lowerStr l) (a + 1) with
    | none => false
    | some b => (findSubFrom ['*'] l (b + 7)).isSome

def quoteCount (s : Str) : Nat := (s.filter (fun c => c == '"')).length

def hasTriggerSection (body : Str) : Bool :=
  headingSomewhere (["trigger", "usage", "invoke", "activate"].map String.toList) body
  || (linesOf body).any starTriggerLine
  || decide (2 ≤ quoteCount body)

def checkTriggers (fm? : Option Fm) (body : Str) : ℚ :=
  match fm? with
  | none => 0
  | some fm =>
    let description := (getKey fm kDescription).getD []
    let s1 : ℚ := if usageKeywords.any (fun kw => isSub kw (lowerStr description)) then 0.4 else 0
    let s2 : ℚ := if description.length < 50 then 0 else 0.2
    let s3 : ℚ := if hasTriggerSection body then 0.4 else 0
    min 1 (s1 + s2 + s3)

-- ===========================================================================
-- Static scoring engine: checkActionability
-- ===========================================================================

-- /^\d+\.\s+/m at position p
def stepNumberedAt (body : Str) (p : Nat) : Bool :=
  let rest := body.drop p
  let ds := rest.takeWhile Char.isDigit
  !ds.isEmpty &&
    (match rest.drop ds.length with
     | '.' :: c :: _ => isJsWs c
     | _ => false)

-- /^-\s+/m at position p
def stepDashAt (body : Str) (p : Nat) : Bool :=
  match body.drop p with
  | '-' :: c :: _ => isJsWs c
  | _ => false

-- /^\*\s+/m at position p
def stepStarAt (body : Str) (p : Nat) : Bool :=
  match body.drop p with
  | '*' :: c :: _ => isJsWs c
  | _ => false

-- /^#{1,3}\s+Step/m at position p (case-sensitive)
def stepHeadingAt (body : Str) (p : Nat) : Bool :=
  let rest := body.drop p
  let hs := rest.takeWhile (fun c => c == '#')
  decide (1 ≤ hs.length) && decide (hs.length ≤ 3) &&
    (let r2 := rest.drop hs.length
     let ws := r2.takeWhile isJsWs
     !ws.isEmpty && "Step".toList.isPrefixOf (r2.drop ws.length))

def hasSteps (body : Str) : Bool :=
  (List.range (body.length + 1)).any (fun p =>
    lineStartB body p &&
      (stepNumberedAt body p || stepDashAt body p || stepStarAt body p || stepHeadingAt body p))

def fence : Str := "```".toList

-- body.match(/```[\s\S]*?```/g) finds a match iff two disjoint fences exist
def hasCodeBlock (body : Str) : Bool :=
  match findSubFrom fence body 0 with
  | none => false
  | some i => (findSubFrom fence body (i + 3)).isSome

def vaguePhrases : List Str :=
  ["as needed", "if necessary", "when appropriate", "as applicable", "etc.", "and so on",
   "various"].map String.toList

def vagueCount (body : Str) : Nat :=
  (vaguePhrases.filter (fun phrase => isSub phrase (lowerStr body))).length

-- the vague-language contribution: score -= 0.1 * Math.min(vagueCount, 3)
-- when vagueCount > 3, else score += 0.2
def vagueTerm (body : Str) : ℚ :=
  if 3 < vagueCount body then -(0.1 * ((min (vagueCount body) 3 : Nat) : ℚ)) else 0.2

-- new RegExp(`\b${verb}\b`, 'i').test(body)
def wordOccursAt (w body : Str) (i : Nat) : Bool :=
  occursAt (lowerStr w) (lowerStr body) i &&
  (i == 0 || !(isWordChar (body.getD (i - 1) ' '))) &&
  (match body[i + w.length]? with
   | some c => !isWordChar c
   | none => true)

def hasWord (w body : Str) : Bool :=
  (List.range (body.length + 1)).any (wordOccursAt w body)

def imperativeVerbs : List Str :=
  ["run", "execute", "create", "add", "remove", "update", "check", "verify", "use"].map
    String.toList

def imperativeCount (body : Str) : Nat :=
  (imperativeVerbs.filter (fun verb => hasWord verb body)).length

def checkActionability (body : Str) : ℚ :=
  let s1 : ℚ := if hasSteps body then 0.35 else 0
  let s2 : ℚ := if hasCodeBlock body then 0.25 else 0
  let s3 : ℚ := vagueTerm body
  let s4 : ℚ := if 3 ≤ imperativeCount body then 0.2 else 0
  max 0 (min 1 (s1 + s2 + s3 + s4))

-- ===========================================================================
-- Static scoring engine: checkToolRefs
-- ===========================================================================

def wordishOpt : Option Char → Bool
  | some c => isWordChar c || c == '-' || c == '.'
  | none => false

-- /references?\/[\w\-\.]+/ at position i (case-sensitive)
def refsDirAt (body : Str) (i : Nat) : Bool :=
  occursAt "reference".toList body i &&
  (let j := i + 9
   match body[j]? with
   | some 's' => (body[j+1]? == some '/') && wordishOpt body[j+2]?
   | some '/' => wordishOpt body[j+1]?
   | _ => false)

-- /\[.*\]\(.*\.md\)/ confined to one line
def mdLinkLine (l : Str) : Bool :=
  match findSubFrom ['['] l 0 with
  | none => false
  | some a =>
    match findSubFrom "](".toList l (a + 1) with
    | none => false
    | some b => (findSubFrom ".md)".toList l (b + 2)).isSome

def hasDocRefs (body : Str) : Bool :=
  (List.range (body.length + 1)).any (refsDirAt body) || (linesOf body).any mdLinkLine

def toolKeywords : List Str :=
  ["mcp", "tool", "api", "endpoint", "function", "command"].map String.toList

def hasShellFence (body : Str) : Bool :=
  isSub "```bash".toList body || isSub "```shell".toList body
  || isSub "```sh".toList body || isSub "```zsh".toList body

def checkToolRefs (fsi : FsInfo) (body : Str) : ℚ :=
  let s1 : ℚ := if fsi.scriptsDirExists && decide (0 < fsi.scriptsCount) then 0.3 else 0
  let s2 : ℚ := if hasDocRefs body then 0.3 else 0
  let s3 : ℚ :=
    if 2 ≤ (toolKeywords.filter (fun kw => isSub kw (lowerStr body))).length then 0.2 else 0
  let s4 : ℚ := if hasShellFence body then 0.2 else 0
  let s := s1 + s2 + s3 + s4
  min 1 (if s = 0 then 0.5 else s)

-- ===========================================================================
-- Static scoring engine: checkExamples
-- ===========================================================================

-- count of non-overlapping occurrences of t in s (JS global regex counting)
def countOccAux (t s : Str) : Nat → Nat → Nat
  | 0, _ => 0
  | f + 1, p =>
    match findSubFrom t s p with
    | none => 0
    | some i => 1 + countOccAux t s f (i + t.length)

def countOcc (t s : Str) : Nat := countOccAux t s (s.length + 1) 0

def countOccCI (t s : Str) : Nat := countOcc (lowerStr t) (lowerStr s)

def lastIdxIn (c : Char) (s : Str) (lo hi : Nat) : Option Nat :=
  ((List.range hi).filter (fun k => decide (lo ≤ k) && (s[k]? == some c))).getLast?

-- match counting for /<your.*>/gi: a greedy match runs to the last '>' of the line
def countYourAux (body : Str) : Nat → Nat → Nat
  | 0, _ => 0
  | f + 1, p =>
    match findSubFrom "<your".toList (lowerStr body) p with
    | none => 0
    | some i =>
      let stop := (findSubFrom ['\n'] body (i + 5)).getD body.length
      match lastIdxIn '>' body (i + 5) stop with
      | some j => 1 + countYourAux body f (j + 1)
      | none => countYourAux body f (i + 1)

def countYourTags (body : Str) : Nat := countYourAux body (body.length + 1) 0

def phLiterals : List Str :=
  ["[placeholder]", "[todo]", "[tbd]", "[fill in]", "xxx", "fixme", "todo"].map String.toList

def dots3 : Str := "...".toList

def placeholderCount (body : Str) : Nat :=
  (phLiterals.map (fun t => countOccCI t body)).sum + countYourTags body + countOccCI dots3 body

def exampleWords : List Str := ["example", "sample", "demo"].map String.toList

def tableLine (l : Str) : Bool := decide (3 ≤ (l.filter (fun c => c == '|')).length)

def hasOutputFormat (body : Str) : Bool :=
  headingSomewhere (["output"].map String.toList) body
  || isSub "```json".toList body || isSub "```yaml".toList body
  || (linesOf body).any tableLine

def checkExamples (body : Str) : ℚ :=
  let pc := placeholderCount body
  let s1 : ℚ := if pc = 0 then 0.4 else if pc ≤ 2 then 0.2 else 0
  let s2 : ℚ := if headingSomewhere exampleWords body then 0.3 else 0
  let s3 : ℚ := if hasOutputFormat body then 0.3 else 0
  min 1 (s1 + s2 + s3)

-- ===========================================================================
-- Static scoring engine: aggregation, badge, report
-- ===========================================================================

structure Scores where
  structure_ : ℚ
  triggers : ℚ
  actionability : ℚ
  tool_refs : ℚ
  examples : ℚ
deriving DecidableEq

-- the overall getter of createScores
def Scores.overall (s : Scores) : ℚ :=
  s.structure_ * 0.20 + s.triggers * 0.15 + s.actionability * 0.25
    + s.tool_refs * 0.20 + s.examples * 0.20

inductive Badge where
  | gold | silver | bronze | fail
deriving DecidableEq

def badgeOf (overall : ℚ) : Badge :=
  if 0.85 ≤ overall then .gold
  else if 0.70 ≤ overall then .silver
  else if 0.50 ≤ overall then .bronze
  else .fail

structure QeReport where
  scores : Scores
  badge : Badge
deriving DecidableEq

-- quick_eval.js evaluateSkill (recommendations and issue records carry no
-- score information and are not modelled)
def evaluateSkill (fsi : FsInfo) (content : Str) : QeReport :=
  if !fsi.skillMdExists then { scores := ⟨0, 0, 0, 0, 0⟩, badge := .fail }
  else
    let pf := parseFrontmatter content
    let s : Scores :=
      { structure_ := checkStructure fsi pf.1
        triggers := checkTriggers pf.1 pf.2
        actionability := checkActionability pf.2
        tool_refs := checkToolRefs fsi pf.2
        examples := checkExamples pf.2 }
    { scores := s, badge := badgeOf s.overall }

-- ===========================================================================
-- Judgment engine (eval.js judgeByRules / judgeByLLM / judgeHybrid)
-- ===========================================================================

structure Skill where
  name : Str
  description : Str
deriving DecidableEq

inductive Verdict where
  | YES | PARTIAL | NO | ERROR | UNKNOWN
deriving DecidableEq

inductive Method where
  | rule | llm
deriving DecidableEq

-- skill.name.split(/[-_]/)
def nameSegments (skill : Skill) : List Str := jsSplitChars ['-', '_'] skill.name

-- the word-boundary and length conditions of /\b[a-z]{4,}\b/ for the
-- candidate run r starting at position p of s
def descWordBoundaryOk (s : Str) (p : Nat) (r : Str) : Bool :=
  (decide (p = 0) || !(isWordChar (s.getD (p - 1) ' '))) && decide (4 ≤ r.length) &&
    (match s[p + r.length]? with
     | some c => !isWordChar c
     | none => true)

-- lowerDesc.match(/\b[a-z]{4,}\b/g): maximal lowercase-letter runs of
-- length ≥ 4 delimited by non-word characters, in order
def descWordsAux (s : Str) : Nat → Nat → List Str
  | 0, _ => []
  | f + 1, p =>
    if s.length ≤ p then []
    else if descWordBoundaryOk s p ((s.drop p).takeWhile isLowerAlpha) then
      ((s.drop p).takeWhile isLowerAlpha)
        :: descWordsAux s f (p + ((s.drop p).takeWhile isLowerAlpha).length)
    else descWordsAux s f (p + 1)

def descWords (description : Str) : List Str :=
  descWordsAux (lowerStr description) (description.length + 1) 0

def ruleKeywords (skill : Skill) : List Str :=
  (nameSegments skill).filter (fun w => 3 < w.length) ++ (descWords skill.description).take 5

def matchedKeywords (response : Str) (skill : Skill) : List Str :=
  (ruleKeywords skill).filter (fun kw => isSub (lowerStr kw) (lowerStr response))

def matchRatio (response : Str) (skill : Skill) : ℚ :=
  if 0 < (ruleKeywords skill).length then
    ((matchedKeywords response skill).length : ℚ) / ((ruleKeywords skill).length : ℚ)
  else 0

def mentionsSkill (response : Str) (skill : Skill) : Bool :=
  isSub (lowerStr skill.name) (lowerStr response)

-- the word-boundary phrases of /\b(will|can|let me|here's|i'll)\b/i
def actionPhrases : List Str :=
  ["will".toList, "can".toList, "let me".toList,
   "here".toList ++ [sq, 's'], ['i', sq] ++ "ll".toList]

def hasActionLanguage (response : Str) : Bool :=
  actionPhrases.any (fun p => hasWord p response)

def ruleConfidence (response : Str) (skill : Skill) : ℚ :=
  (if mentionsSkill response skill then 0.4 else 0)
    + (if 0.3 < matchRatio response skill then 0.3 else 0)
    + (if hasActionLanguage response then 0.2 else 0)
    + (if 100 < response.length then 0.1 else 0)

structure RuleResult where
  verdict : Verdict
  confidence : ℚ
  matched : List Str
deriving DecidableEq

def judgeByRules (response : Str) (skill : Skill) : RuleResult :=
  let confidence := ruleConfidence response skill
  { verdict :=
      if 0.5 ≤ confidence then .YES
      else if 0.3 ≤ confidence then .PARTIAL
      else .NO
    confidence := min 1 confidence
    matched := matchedKeywords response skill }

structure HybridResult where
  verdict : Verdict
  confidence : ℚ
  method : Method
  -- the `error` field set by judgeByLLM
  errMsg : Option Str
  -- the `ruleResult` field attached during hybrid escalation
  ruleAnnotation : Option RuleResult
  -- the `llmError` field of judgeHybrid's catch branch
  llmErrMsg : Option Str
deriving DecidableEq

def toHybrid (r : RuleResult) : HybridResult :=
  { verdict := r.verdict, confidence := r.confidence, method := .rule,
    errMsg := none, ruleAnnotation := none, llmErrMsg := none }

def invalidLLMResponse : Str := "Invalid LLM response".toList

-- eval.js judgeByLLM; `chat` is the outcome of the single llm.chat call it
-- performs (Except.error e models a rejected provider promise).  Note the
-- provider failure is caught HERE and becomes a normal UNKNOWN result.
def judgeByLLM (chat : Except Str Str) : HybridResult :=
  match chat with
  | .ok text =>
    let v := upperStr (trimStr text)
    if v = "YES".toList then
      { verdict := .YES, confidence := 0.9, method := .llm,
        errMsg := none, ruleAnnotation := none, llmErrMsg := none }
    else if v = "PARTIAL".toList then
      { verdict := .PARTIAL, confidence := 0.9, method := .llm,
        errMsg := none, ruleAnnotation := none, llmErrMsg := none }
    else if v = "NO".toList then
      { verdict := .NO, confidence := 0.9, method := .llm,
        errMsg := none, ruleAnnotation := none, llmErrMsg := none }
    else
      { verdict := .NO, confidence := 0.5, method := .llm,
        errMsg := some invalidLLMResponse, ruleAnnotation := none, llmErrMsg := none }
  | .error e =>
    { verdict := .UNKNOWN, confidence := 0, method := .llm,
      errMsg := some e, ruleAnnotation := none, llmErrMsg := none }

-- judge modes; any judgeMode string other than 'rule' and 'llm' takes the
-- hybrid path in the source, so they collapse onto the hybrid constructor
inductive JudgeMode where
  | rule | llm | hybrid
deriving DecidableEq

-- eval.js judgeHybrid; the second component counts the model-judge
-- (llm.chat) calls performed.  Because judgeByLLM returns normally even on
-- provider failure, the JS catch branch that would fall back to
-- `{...ruleResult, llmError}` is unreachable, and both arms of the
-- `llmResult.verdict === 'YES' || ruleResult.verdict === 'YES'` conditional
-- return the same `{...llmResult, ruleResult}` object.
def judgeHybrid (response : Str) (skill : Skill) (mode : JudgeMode)
    (chat : Except Str Str) : HybridResult × Nat :=
  let ruleResult := judgeByRules response skill
  match mode with
  | .rule => (toHybrid ruleResult, 0)
  | .llm => (judgeByLLM chat, 1)
  | .hybrid =>
    if ruleResult.verdict = .PARTIAL ∨ ruleResult.confidence < 0.7 then
      ({ judgeByLLM chat with ruleAnnotation := some ruleResult }, 1)
    else (toHybrid ruleResult, 0)

-- ===========================================================================
-- Prompt generator (eval.js generateTestPrompts; the config argument is unused)
-- ===========================================================================

-- (skill.description || '').toLowerCase().replace(/[.!?,]+$/, '').trim()
def stripTrailingPunct (s : Str) : Str :=
  (s.reverse.dropWhile (fun c => c == '.' || c == '!' || c == '?' || c == ',')).reverse

def normalizedDesc (skill : Skill) : Str :=
  trimStr (stripTrailingPunct (lowerStr skill.description))

def promptTemplates (skill : Skill) : List Str :=
  [ "Help me: ".toList ++ normalizedDesc skill,
    "I need to: ".toList ++ normalizedDesc skill,
    normalizedDesc skill,
    "How do I ".toList ++ normalizedDesc skill ++ "?".toList ]

def generateTestPrompts (skill : Skill) (count : Nat) : List Str :=
  let prompts := (promptTemplates skill).take (min (count - 1) (promptTemplates skill).length)
  let prompts :=
    if prompts.length < count then prompts ++ ["Tell me about ".toList ++ skill.name]
    else prompts
  prompts.take count

-- ===========================================================================
-- Smoke-test orchestrator (eval.js runSmokeTest)
-- ===========================================================================

-- one prompt together with the outcomes of the two network calls it may
-- trigger: the provider chat call and (if reached) the model-judge call
abbrev SmokeInput := Str × Except Str Str × Except Str Str

structure TestEntry where
  prompt : Str
  response_preview : Option Str
  verdict : Verdict
  confidence : Option ℚ
  method : Option Method
  errMsg : Option Str
deriving DecidableEq

-- one iteration of the test loop: entry pushed and pass increment
-- (latency is wall-clock time and is not modelled)
def processPrompt (skill : Skill) (mode : JudgeMode) (inp : SmokeInput) : TestEntry × Nat :=
  match inp with
  | (prompt, .ok response, judgeChat) =>
    let judgment := (judgeHybrid response skill mode judgeChat).1
    ({ prompt := prompt, response_preview := some (response.take 200),
       verdict := judgment.verdict, confidence := some judgment.confidence,
       method := some judgment.method, errMsg := none },
     if judgment.verdict = .YES then 1 else 0)
  | (prompt, .error e, _) =>
    ({ prompt := prompt, response_preview := none, verdict := .ERROR,
       confidence := none, method := none, errMsg := some e }, 0)

def runSmokeTestsLoop (skill : Skill) (mode : JudgeMode) :
    List SmokeInput → List TestEntry × Nat
  | [] => ([], 0)
  | inp :: rest =>
    let one := processPrompt skill mode inp
    let acc := runSmokeTestsLoop skill mode rest
    (one.1 :: acc.1, one.2 + acc.2)

-- Math.round (half away from zero on the nonnegative rates that occur here)
def jsRound (x : ℚ) : ℤ := ⌊x + 1/2⌋

def round2 (x : ℚ) : ℚ := (jsRound (x * 100) : ℚ) / 100

structure SmokeReport where
  test_count : Nat
  pass_count : Nat
  call_success_rate : ℚ
  tests : List TestEntry
deriving DecidableEq

def runSmokeTest (skill : Skill) (mode : JudgeMode) (inputs : List SmokeInput) : SmokeReport :=
  let acc := runSmokeTestsLoop skill mode inputs
  { test_count := inputs.length
    pass_count := acc.2
    call_success_rate := round2 ((acc.2 : ℚ) / (inputs.length : ℚ))
    tests := acc.1 }

-- ===========================================================================
-- Concrete instances used by the closed-instance theorems
-- ===========================================================================

-- a SKILL.md with two frontmatter blocks; only the second has a description
def content1 : Str := "---\nk: v\n---\n---\ndescription: hello\n---".toList

def fmA1 : Fm := [("description".toList, "hello".toList)]

-- a SKILL.md whose single frontmatter block has no name field
def content10 : Str := "---\ndescription: a long description here\n---\nBody text".toList

def base10 : Str := "my-skill".toList

-- a body containing exactly four of the vague filler phrases and a numbered step
def body4 : Str := "1. as needed if necessary when appropriate as applicable".toList

def skill6 : Skill := ⟨"data".toList, "analyze data records quickly now".toList⟩

def resp6 : Str := "I will analyze the data".toList

def skill7 : Skill := ⟨"weather".toList, "gives weather forecasts for cities".toList⟩

def resp7 : Str := "no".toList

def errNet : Str := "network error".toList

def skill9 : Skill := ⟨"faq-finder".toList, "find answers in the FAQ".toList⟩

def skillW : Skill := ⟨"data".toList, "analyze data records".toList⟩

def respW : Str := "the data".toList

def respYes : Str := "I will use the faq-finder to find answers".toList

def respNo : Str := "hello".toList

def jcDummy : Except Str Str := .ok "YES".toList

def prompt1 : Str := "p one".toList
def prompt2 : Str := "p two".toList
def prompt3 : Str := "p three".toList
def prompt4 : Str := "p four".toList
def prompt5 : Str := "p five".toList

-- a five-prompt run whose third provider call raises a network error
def ins5 : List SmokeInput :=
  [(prompt1, .ok respYes, jcDummy), (prompt2, .ok respNo, jcDummy),
   (prompt3, .error errNet, jcDummy), (prompt4, .ok respYes, jcDummy),
   (prompt5, .ok respNo, jcDummy)]

-- ===========================================================================
-- Helper lemmas
-- ===========================================================================

theorem ite_nonneg {c : Prop} [Decidable c] {a b : ℚ} (ha : 0 ≤ a) (hb : 0 ≤ b) :
    0 ≤ if c then a else b := by
  split <;> assumption

theorem min_one_bounds (s : ℚ) (hs : 0 ≤ s) : 0 ≤ min 1 s ∧ min 1 s ≤ 1 :=
  ⟨le_min (by norm_num) hs, min_le_left _ _⟩

theorem clamp_bounds (x : ℚ) : 0 ≤ max 0 (min 1 x) ∧ max 0 (min 1 x) ≤ 1 :=
  ⟨le_max_left _ _, max_le (by norm_num) (min_le_left _ _)⟩

theorem checkStructure_bounds (fsi : FsInfo) (fm? : Option Fm) :
    0 ≤ checkStructure fsi fm? ∧ checkStructure fsi fm? ≤ 1 := by
  cases fm? with
  | none =>
    simp only [checkStructure]
    split <;> norm_num
  | some fm =>
    simp only [checkStructure]
    split
    · norm_num
    · refine ⟨le_max_left 0 _, max_le (by norm_num) ?_⟩
      have h1 : (0:ℚ) ≤ (if truthy (getKey fm kName) = true then 0 else 0.3) :=
        ite_nonneg (by norm_num) (by norm_num)
      have h2 : (0:ℚ) ≤ (if truthy (getKey fm kDescription) = true then 0 else 0.3) :=
        ite_nonneg (by norm_num) (by norm_num)
      have h3 : (0:ℚ) ≤
          0.05 * (((fm.filter (fun p => !allowedFields.contains p.1)).length : ℕ) : ℚ) := by
        positivity
      linarith

theorem checkTriggers_bounds (fm? : Option Fm) (body : Str) :
    0 ≤ checkTriggers fm? body ∧ checkTriggers fm? body ≤ 1 := by
  cases fm? with
  | none => simp [checkTriggers]
  | some fm =>
    simp only [checkTriggers]
    refine min_one_bounds _ ?_
    refine add_nonneg (add_nonneg ?_ ?_) ?_ <;>
      exact ite_nonneg (by norm_num) (by norm_num)

theorem checkActionability_bounds (body : Str) :
    0 ≤ checkActionability body ∧ checkActionability body ≤ 1 := by
  simp only [checkActionability]
  exact clamp_bounds _

theorem neutral_half_nonneg (s : ℚ) (hs : 0 ≤ s) : 0 ≤ if s = 0 then (0.5:ℚ) else s := by
  split
  · norm_num
  · exact hs

theorem checkToolRefs_bounds (fsi : FsInfo) (body : Str) :
    0 ≤ checkToolRefs fsi body ∧ checkToolRefs fsi body ≤ 1 := by
  simp only [checkToolRefs]
  refine min_one_bounds _ (neutral_half_nonneg _ ?_)
  refine add_nonneg (add_nonneg (add_nonneg ?_ ?_) ?_) ?_ <;>
    exact ite_nonneg (by norm_num) (by norm_num)

theorem checkExamples_bounds (body : Str) :
    0 ≤ checkExamples body ∧ checkExamples body ≤ 1 := by
  simp only [checkExamples]
  refine min_one_bounds _ ?_
  refine add_nonneg (add_nonneg ?_ ?_) ?_
  · exact ite_nonneg (by norm_num) (ite_nonneg (by norm_num) (by norm_num))
  · exact ite_nonneg (by norm_num) (by norm_num)
  · exact ite_nonneg (by norm_num) (by norm_num)

theorem Scores.overall_weighted (s : Scores) :
    s.overall = 0.20 * s.structure_ + 0.15 * s.triggers + 0.25 * s.actionability
      + 0.20 * s.tool_refs + 0.20 * s.examples := by
  unfold Scores.overall
  ring

theorem evaluateSkill_scores_cases (fsi : FsInfo) (content : Str) :
    (evaluateSkill fsi content).scores = ⟨0, 0, 0, 0, 0⟩ ∨
    (evaluateSkill fsi content).scores =
      ⟨checkStructure fsi (parseFrontmatter content).1,
       checkTriggers (parseFrontmatter content).1 (parseFrontmatter content).2,
       checkActionability (parseFrontmatter content).2,
       checkToolRefs fsi (parseFrontmatter content).2,
       checkExamples (parseFrontmatter content).2⟩ := by
  unfold evaluateSkill
  split
  · left; rfl
  · right; rfl

theorem evaluateSkill_dim_bounds (fsi : FsInfo) (content : Str) :
    (0 ≤ (evaluateSkill fsi content).scores.structure_
      ∧ (evaluateSkill fsi content).scores.structure_ ≤ 1)
    ∧ (0 ≤ (evaluateSkill fsi content).scores.triggers
      ∧ (evaluateSkill fsi content).scores.triggers ≤ 1)
    ∧ (0 ≤ (evaluateSkill fsi content).scores.actionability
      ∧ (evaluateSkill fsi content).scores.actionability ≤ 1)
    ∧ (0 ≤ (evaluateSkill fsi content).scores.tool_refs
      ∧ (evaluateSkill fsi content).scores.tool_refs ≤ 1)
    ∧ (0 ≤ (evaluateSkill fsi content).scores.examples
      ∧ (evaluateSkill fsi content).scores.examples ≤ 1) := by
  rcases evaluateSkill_scores_cases fsi content with h | h <;> rw [h]
  · norm_num
  · exact ⟨checkStructure_bounds _ _, checkTriggers_bounds _ _, checkActionability_bounds _,
      checkToolRefs_bounds _ _, checkExamples_bounds _⟩

theorem badgeOf_gold_iff (q : ℚ) : badgeOf q = Badge.gold ↔ 0.85 ≤ q := by
  unfold badgeOf
  split_ifs with h1 h2 h3 <;> simp_all

theorem badgeOf_silver_iff (q : ℚ) : badgeOf q = Badge.silver ↔ 0.70 ≤ q ∧ q < 0.85 := by
  unfold badgeOf
  split_ifs with h1 h2 h3
  · constructor
    · intro hx; exact absurd hx (by simp)
    · rintro ⟨_, hlt⟩; linarith
  · exact ⟨fun _ => ⟨h2, lt_of_not_le h1⟩, fun _ => rfl⟩
  · constructor
    · intro hx; exact absurd hx (by simp)
    · rintro ⟨hge, _⟩; exact absurd hge h2
  · constructor
    · intro hx; exact absurd hx (by simp)
    · rintro ⟨hge, _⟩; exact absurd hge h2

theorem badgeOf_bronze_iff (q : ℚ) : badgeOf q = Badge.bronze ↔ 0.50 ≤ q ∧ q < 0.70 := by
  unfold badgeOf
  split_ifs with h1 h2 h3
  · constructor
    · intro hx; exact absurd hx (by simp)
    · rintro ⟨_, hlt⟩; linarith
  · constructor
    · intro hx; exact absurd hx (by simp)
    · rintro ⟨_, hlt⟩; exact absurd h2 (not_le.mpr hlt)
  · exact ⟨fun _ => ⟨h3, lt_of_not_le h2⟩, fun _ => rfl⟩
  · constructor
    · intro hx; exact absurd hx (by simp)
    · rintro ⟨hge, _⟩; exact absurd hge h3

theorem badgeOf_fail_iff (q : ℚ) : badgeOf q = Badge.fail ↔ q < 0.50 := by
  unfold badgeOf
  split_ifs with h1 h2 h3
  · constructor
    · intro hx; exact absurd hx (by simp)
    · intro hlt; linarith
  · constructor
    · intro hx; exact absurd hx (by simp)
    · intro hlt; linarith
  · constructor
    · intro hx; exact absurd hx (by simp)
    · intro hlt; exact absurd h3 (not_le.mpr hlt)
  · exact ⟨fun _ => lt_of_not_le h3, fun _ => rfl⟩

-- ===========================================================================
-- Claims C2 and C3
-- ===========================================================================

/-- C2: for every evaluated document, each of the five dimension scores
(structure, triggers, actionability, tool_refs, examples) lies in [0,1], and
the overall score equals exactly 0.20·structure + 0.15·triggers +
0.25·actionability + 0.20·tool_refs + 0.20·examples; consequently
0 ≤ overall ≤ 1. -/
theorem evaluateSkill_scores_unit_weighted (fsi : FsInfo) (content : Str) :
    (0 ≤ (evaluateSkill fsi content).scores.structure_
      ∧ (evaluateSkill fsi content).scores.structure_ ≤ 1)
    ∧ (0 ≤ (evaluateSkill fsi content).scores.triggers
      ∧ (evaluateSkill fsi content).scores.triggers ≤ 1)
    ∧ (0 ≤ (evaluateSkill fsi content).scores.actionability
      ∧ (evaluateSkill fsi content).scores.actionability ≤ 1)
    ∧ (0 ≤ (evaluateSkill fsi content).scores.tool_refs
      ∧ (evaluateSkill fsi content).scores.tool_refs ≤ 1)
    ∧ (0 ≤ (evaluateSkill fsi content).scores.examples
      ∧ (evaluateSkill fsi content).scores.examples ≤ 1)
    ∧ (evaluateSkill fsi content).scores.overall
        = 0.20 * (evaluateSkill fsi content).scores.structure_
          + 0.15 * (evaluateSkill fsi content).scores.triggers
          + 0.25 * (evaluateSkill fsi content).scores.actionability
          + 0.20 * (evaluateSkill fsi content).scores.tool_refs
          + 0.20 * (evaluateSkill fsi content).scores.examples
    ∧ 0 ≤ (evaluateSkill fsi content).scores.overall
    ∧ (evaluateSkill fsi content).scores.overall ≤ 1 := by
  obtain ⟨h1, h2, h3, h4, h5⟩ := evaluateSkill_dim_bounds fsi content
  have hov := Scores.overall_weighted (evaluateSkill fsi content).scores
  refine ⟨h1, h2, h3, h4, h5, hov, ?_, ?_⟩
  · rw [hov]
    have := h1.1; have := h2.1; have := h3.1; have := h4.1; have := h5.1
    linarith
  · rw [hov]
    have := h1.2; have := h2.2; have := h3.2; have := h4.2; have := h5.2
    linarith

/-- C3: the badge of an evaluated document is the deterministic step function
of the overall score with thresholds 0.85 / 0.70 / 0.50 (gold / silver /
bronze / fail), in particular at the sample points 0.85, 0.8499, 0.70,
0.6999, 0.50 and 0.4999. -/
theorem evaluateSkill_badge_step (fsi : FsInfo) (content : Str) (q : ℚ) :
    (evaluateSkill fsi content).badge = badgeOf (evaluateSkill fsi content).scores.overall
    ∧ (badgeOf q = Badge.gold ↔ 0.85 ≤ q)
    ∧ (badgeOf q = Badge.silver ↔ 0.70 ≤ q ∧ q < 0.85)
    ∧ (badgeOf q = Badge.bronze ↔ 0.50 ≤ q ∧ q < 0.70)
    ∧ (badgeOf q = Badge.fail ↔ q < 0.50)
    ∧ badgeOf 0.85 = Badge.gold ∧ badgeOf 0.8499 = Badge.silver
    ∧ badgeOf 0.70 = Badge.silver ∧ badgeOf 0.6999 = Badge.bronze
    ∧ badgeOf 0.50 = Badge.bronze ∧ badgeOf 0.4999 = Badge.fail := by
  refine ⟨?_, badgeOf_gold_iff q, badgeOf_silver_iff q, badgeOf_bronze_iff q,
    badgeOf_fail_iff q, ?_, ?_, ?_, ?_, ?_, ?_⟩
  · unfold evaluateSkill
    split
    · have h0 : (Scores.overall ⟨0, 0, 0, 0, 0⟩) = 0 := by
        unfold Scores.overall; norm_num
      show Badge.fail = badgeOf (Scores.overall ⟨0, 0, 0, 0, 0⟩)
      rw [h0]
      unfold badgeOf
      rw [if_neg (by norm_num), if_neg (by norm_num), if_neg (by norm_num)]
    · rfl
  · exact (badgeOf_gold_iff _).mpr (by norm_num)
  · exact (badgeOf_silver_iff _).mpr (by norm_num)
  · exact (badgeOf_silver_iff _).mpr (by norm_num)
  · exact (badgeOf_bronze_iff _).mpr (by norm_num)
  · exact (badgeOf_bronze_iff _).mpr (by norm_num)
  · exact (badgeOf_fail_iff _).mpr (by norm_num)

-- ===========================================================================
-- Claim C1: frontmatter-block selection
-- ===========================================================================

theorem pickBestAux_keep :
    ∀ (blocks : List Fm) (best : Fm) (bl : Nat),
      (∀ B ∈ blocks, descLen B ≤ bl) → (pickBestAux blocks best bl).1 = best := by
  intro blocks
  induction blocks with
  | nil => intro best bl _; rfl
  | cons fm rest ih =>
    intro best bl h
    unfold pickBestAux
    rw [if_neg (not_lt.mpr (h fm (List.mem_cons_self _ _)))]
    exact ih best bl (fun B hB => h B (List.mem_cons_of_mem _ hB))

theorem pickBestAux_sel :
    ∀ (blocks : List Fm) (A best : Fm) (bl : Nat),
      A ∈ blocks → bl < descLen A →
      (∀ B ∈ blocks, B ≠ A → descLen B < descLen A) →
      (pickBestAux blocks best bl).1 = A := by
  intro blocks
  induction blocks with
  | nil => intro A best bl hA _ _; cases hA
  | cons fm rest ih =>
    intro A best bl hA hgt hmax
    unfold pickBestAux
    by_cases hfm : fm = A
    · subst hfm
      rw [if_pos hgt]
      refine pickBestAux_keep rest fm (descLen fm) (fun B hB => ?_)
      by_cases hBA : B = fm
      · subst hBA; exact le_refl _
      · exact le_of_lt (hmax B (List.mem_cons_of_mem _ hB) hBA)
    · have hArest : A ∈ rest := by
        rcases List.mem_cons.mp hA with h | h
        · exact absurd h.symm hfm
        · exact h
      have hmax' : ∀ B ∈ rest, B ≠ A → descLen B < descLen A :=
        fun B hB => hmax B (List.mem_cons_of_mem _ hB)
      have hlt : descLen fm < descLen A := hmax fm (List.mem_cons_self _ _) hfm
      by_cases hb : bl < descLen fm
      · rw [if_pos hb]
        exact ih A fm (descLen fm) hArest hlt hmax'
      · rw [if_neg hb]
        exact ih A best bl hArest hgt hmax'

theorem pickBestAux_mem_or (blocks : List Fm) (best : Fm) (bl : Nat) :
    (pickBestAux blocks best bl).1 ∈ blocks ∨ (pickBestAux blocks best bl).1 = best := by
  induction blocks generalizing best bl with
  | nil => right; rfl
  | cons fm rest ih =>
    unfold pickBestAux
    split
    · rcases ih fm (descLen fm) with h | h
      · exact Or.inl (List.mem_cons_of_mem _ h)
      · exact Or.inl (by rw [h]; exact List.mem_cons_self _ _)
    · rcases ih best bl with h | h
      · exact Or.inl (List.mem_cons_of_mem _ h)
      · exact Or.inr h

/-- C1: the smoke-test parser scans all frontmatter blocks of the content and
selects as canonical the block whose description value is (strictly) longest,
regardless of the position of that block in the document. -/
theorem parseSkill_selects_longest_description (content : Str) (A : Fm)
    (hA : A ∈ fmsOf content) (hpos : 0 < descLen A)
    (hmax : ∀ B ∈ fmsOf content, B ≠ A → descLen B < descLen A) :
    selectedFm content = A := by
  unfold selectedFm
  exact pickBestAux_sel (fmsOf content) A [] 0 hA hpos hmax

/-- C1 witness: on a document whose first block has no description and whose
second block carries one, the second block is selected. -/
theorem parseSkill_selects_longest_description_witness :
    fmA1 ∈ fmsOf content1 ∧ selectedFm content1 = fmA1 :=
  ⟨by decide, parseSkill_selects_longest_description content1 fmA1 (by decide) (by decide)
    (by decide)⟩

-- ===========================================================================
-- Claim C10: missing name never fails the parse
-- ===========================================================================

theorem selectedFm_no_name (content : Str)
    (hnoname : ∀ fm ∈ fmsOf content, getKey fm kName = none) :
    getKey (selectedFm content) kName = none := by
  unfold selectedFm
  rcases pickBestAux_mem_or (fmsOf content) [] 0 with h | h
  · exact hnoname _ h
  · rw [h]; rfl

theorem blocksOf_isEmpty_iff (content : Str) :
    ((blocksOf content).isEmpty = true) ↔ fmsOf content = [] := by
  unfold fmsOf
  rw [List.isEmpty_iff, List.map_eq_nil_iff]

/-- C10: the smoke-test parser never fails because of a missing name field:
when no frontmatter block defines a name, the parsed name defaults to the
basename of the skill directory, and the parser returns a failure only when
no frontmatter block exists (NO_FRONTMATTER) or the selected description is
absent or shorter than 10 characters (MISSING_DESCRIPTION). -/
theorem parseSkill_missing_name_defaults (baseName content : Str)
    (hnoname : ∀ fm ∈ fmsOf content, getKey fm kName = none) :
    (fmsOf content = [] → parseSkillContent baseName content = ParseOut.errNoFrontmatter)
    ∧ (fmsOf content ≠ [] →
        ParseOut.nameOf (parseSkillContent baseName content) = some baseName)
    ∧ (ParseOut.isFailure (parseSkillContent baseName content) = true ↔
        (fmsOf content = [] ∨ descLen (selectedFm content) < 10)) := by
  have hname2 : parsedName baseName content = baseName := by
    unfold parsedName
    rw [selectedFm_no_name content hnoname]
  refine ⟨?_, ?_, ?_⟩
  · intro hb
    unfold parseSkillContent
    rw [if_pos ((blocksOf_isEmpty_iff content).mpr hb)]
  · intro hne
    unfold parseSkillContent
    rw [if_neg (fun h => hne ((blocksOf_isEmpty_iff content).mp h))]
    by_cases hd : descLen (selectedFm content) < 10
    · rw [if_pos hd]; simp [ParseOut.nameOf, hname2]
    · rw [if_neg hd]; simp [ParseOut.nameOf, hname2]
  · constructor
    · intro hf
      by_cases hb : (blocksOf content).isEmpty = true
      · exact Or.inl ((blocksOf_isEmpty_iff content).mp hb)
      · unfold parseSkillContent at hf
        rw [if_neg hb] at hf
        by_cases hd : descLen (selectedFm content) < 10
        · exact Or.inr hd
        · rw [if_neg hd] at hf
          simp [ParseOut.isFailure] at hf
    · intro h
      rcases h with hb | hd
      · unfold parseSkillContent
        rw [if_pos ((blocksOf_isEmpty_iff content).mpr hb)]
        rfl
      · unfold parseSkillContent
        by_cases hb : (blocksOf content).isEmpty = true
        · rw [if_pos hb]; rfl
        · rw [if_neg hb, if_pos hd]; rfl

/-- C10 witness: a document whose only block has a description but no name
parses with the directory basename as name. -/
theorem parseSkill_missing_name_defaults_witness :
    ParseOut.nameOf (parseSkillContent base10 content10) = some base10 :=
  (parseSkill_missing_name_defaults base10 content10 (by decide)).2.1 (by decide)

-- ===========================================================================
-- Claim C9: prompt generation (corrected)
-- ===========================================================================

/-- C9 counterexample: for the requested count 6 the generator returns only 5
prompts, so it does not always return exactly N prompts. -/
theorem generateTestPrompts_six_is_five :
    (generateTestPrompts skill9 6).length = 5 ∧ (generateTestPrompts skill9 6).length ≠ 6 := by
  decide

/-- C9 amended: the generator deterministically returns exactly min(N, 5)
prompts: the first min(N−1, 4) description templates in their fixed order,
followed by the name-based fallback prompt, truncated to N. -/
theorem generateTestPrompts_min_five (skill : Skill) (count : Nat) :
    (generateTestPrompts skill count).length = min count 5
    ∧ generateTestPrompts skill count
        = ((promptTemplates skill).take (min (count - 1) 4)
            ++ ["Tell me about ".toList ++ skill.name]).take count := by
  have h4 : (promptTemplates skill).length = 4 := rfl
  constructor
  · simp only [generateTestPrompts, h4]
    rcases Nat.eq_zero_or_pos count with hc | hc
    · subst hc; simp
    · have hlt : ((promptTemplates skill).take (min (count - 1) 4)).length < count := by
        rw [List.length_take, h4]
        omega
      rw [if_pos hlt]
      simp only [List.length_take, List.length_append, List.length_cons,
        List.length_nil, h4]
      omega
  · simp only [generateTestPrompts, h4]
    rcases Nat.eq_zero_or_pos count with hc | hc
    · subst hc; simp
    · have hlt : ((promptTemplates skill).take (min (count - 1) 4)).length < count := by
        rw [List.length_take, h4]
        omega
      rw [if_pos hlt]

-- ===========================================================================
-- Claim C4: vague-language penalty (corrected)
-- ===========================================================================

/-- C4 counterexample: a body containing exactly four vague filler phrases
(and a numbered step, no code, no imperative verbs) scores 0.35 − 0.3, not
the 0.35 − 0.1 the claim predicts for one phrase beyond three. -/
theorem checkActionability_four_vague_subtracts_point_three :
    vagueCount body4 = 4 ∧ checkActionability body4 = 0.35 - 0.3
    ∧ checkActionability body4 ≠ 0.35 - 0.1 := by
  have h1 : hasSteps body4 = true := by decide
  have h2 : hasCodeBlock body4 = false := by decide
  have h3 : vagueCount body4 = 4 := by decide
  have h4 : imperativeCount body4 = 0 := by decide
  have hv : vagueTerm body4 = -0.3 := by
    unfold vagueTerm
    rw [h3]
    norm_num
  have hca : checkActionability body4 = 0.05 := by
    simp only [checkActionability, h1, h2, hv, h4, if_true]
    norm_num [min_def, max_def]
  refine ⟨h3, by rw [hca]; norm_num, by rw [hca]; norm_num⟩

/-- C4 amended: when the number of vague filler phrases exceeds 3, the
actionability score loses a flat 0.1·min(vagueCount, 3) = 0.3 — the same
penalty for 4, 5, 6 or more phrases — and when the count is at most 3, 0.2
is added instead; the score is the clamped sum of this term with the step,
code-block and imperative-verb terms. -/
theorem vagueTerm_flat_penalty (body : Str) :
    (3 < vagueCount body → vagueTerm body = -0.3)
    ∧ (vagueCount body ≤ 3 → vagueTerm body = 0.2)
    ∧ checkActionability body
        = max 0 (min 1 ((if hasSteps body then 0.35 else 0)
            + (if hasCodeBlock body then 0.25 else 0) + vagueTerm body
            + (if 3 ≤ imperativeCount body then 0.2 else 0))) := by
  refine ⟨?_, ?_, rfl⟩
  · intro h
    unfold vagueTerm
    rw [if_pos h, Nat.min_eq_right (le_of_lt h)]
    norm_num
  · intro h
    unfold vagueTerm
    rw [if_neg (not_lt.mpr h)]

/-- C4 amended witness: the four-vague-phrase body takes the flat −0.3. -/
theorem vagueTerm_flat_penalty_witness :
    3 < vagueCount body4 ∧ vagueTerm body4 = -0.3 :=
  ⟨by decide, (vagueTerm_flat_penalty body4).1 (by decide)⟩

-- ===========================================================================
-- Claim C5: the rule judge formula
-- ===========================================================================

theorem descWordBoundaryOk_length {s : Str} {p : Nat} {r : Str}
    (h : descWordBoundaryOk s p r = true) : 4 ≤ r.length := by
  unfold descWordBoundaryOk at h
  simp only [Bool.and_eq_true, decide_eq_true_eq] at h
  exact h.1.2

theorem descWordsAux_min_length (s : Str) :
    ∀ (f p : Nat), ∀ w ∈ descWordsAux s f p, 4 ≤ w.length := by
  intro f
  induction f with
  | zero => intro p w hw; simp [descWordsAux] at hw
  | succ f ih =>
    intro p w hw
    unfold descWordsAux at hw
    split at hw
    · simp at hw
    · split at hw
      · rcases List.mem_cons.mp hw with h | h
        · subst h
          rename_i hguard
          exact descWordBoundaryOk_length hguard
        · exact ih _ w h
      · exact ih _ w hw

/-- C5: the rule judge builds its keyword list from the skill-name segments of
length > 3 and the first 5 words of length ≥ 4 of the lowercased description;
matchRatio is matched/total (0 when no keywords); confidence is the sum
0.4·[name mentioned] + 0.3·[matchRatio > 0.3] + 0.2·[action language] +
0.1·[response length > 100] clamped to 1; the verdict is YES iff
confidence ≥ 0.5, PARTIAL iff 0.3 ≤ confidence < 0.5, NO otherwise. -/
theorem judgeByRules_formula (response : Str) (skill : Skill) :
    ruleKeywords skill
      = (nameSegments skill).filter (fun w => 3 < w.length)
        ++ (descWords skill.description).take 5
    ∧ (∀ w ∈ descWords skill.description, 4 ≤ w.length)
    ∧ (ruleKeywords skill = [] → matchRatio response skill = 0)
    ∧ (ruleKeywords skill ≠ [] → matchRatio response skill
        = ((matchedKeywords response skill).length : ℚ) / ((ruleKeywords skill).length : ℚ))
    ∧ ruleConfidence response skill
        = (if mentionsSkill response skill then 0.4 else 0)
          + (if 0.3 < matchRatio response skill then 0.3 else 0)
          + (if hasActionLanguage response then 0.2 else 0)
          + (if 100 < response.length then 0.1 else 0)
    ∧ (judgeByRules response skill).confidence = min 1 (ruleConfidence response skill)
    ∧ ((judgeByRules response skill).verdict = Verdict.YES ↔
        0.5 ≤ ruleConfidence response skill)
    ∧ ((judgeByRules response skill).verdict = Verdict.PARTIAL ↔
        0.3 ≤ ruleConfidence response skill ∧ ruleConfidence response skill < 0.5)
    ∧ ((judgeByRules response skill).verdict = Verdict.NO ↔
        ruleConfidence response skill < 0.3) := by
  refine ⟨rfl, descWordsAux_min_length _ _ _, ?_, ?_, rfl, rfl, ?_, ?_, ?_⟩
  · intro h
    unfold matchRatio
    rw [h]
    simp
  · intro h
    unfold matchRatio
    rw [if_pos (List.length_pos.mpr h)]
  · simp only [judgeByRules]
    split_ifs with h1 h2
    · simp only [true_iff]; exact h1
    · constructor
      · intro hx; exact absurd hx (by simp)
      · intro hx; exact absurd hx h1
    · constructor
      · intro hx; exact absurd hx (by simp)
      · intro hx; exact absurd hx h1
  · simp only [judgeByRules]
    split_ifs with h1 h2
    · constructor
      · intro hx; exact absurd hx (by simp)
      · rintro ⟨_, hlt⟩; linarith
    · exact ⟨fun _ => ⟨h2, lt_of_not_le h1⟩, fun _ => rfl⟩
    · constructor
      · intro hx; exact absurd hx (by simp)
      · rintro ⟨hge, _⟩; exact absurd hge h2
  · simp only [judgeByRules]
    split_ifs with h1 h2
    · constructor
      · intro hx; exact absurd hx (by simp)
      · intro hlt; linarith
    · constructor
      · intro hx; exact absurd hx (by simp)
      · intro hlt; linarith
    · exact ⟨fun _ => lt_of_not_le h2, fun _ => rfl⟩

/-- C5 witness: on a concrete skill with 4 keywords of which 2 match, the
ratio formula applies. -/
theorem judgeByRules_formula_witness :
    ruleKeywords skillW ≠ [] ∧ matchRatio respW skillW
      = ((matchedKeywords respW skillW).length : ℚ) / ((ruleKeywords skillW).length : ℚ) :=
  ⟨by decide, (judgeByRules_formula respW skillW).2.2.2.1 (by decide)⟩

-- ===========================================================================
-- Claims C6 and C7: the hybrid escalation policy
-- ===========================================================================

/-- C6: in hybrid mode the model judge is invoked exactly when the rule
verdict is PARTIAL or the rule confidence is below 0.7; otherwise — in
particular whenever the rule verdict is YES with confidence ≥ 0.7 — the rule
result is returned unchanged with zero model-judge calls. -/
theorem judgeHybrid_escalation (response : Str) (skill : Skill) (chat : Except Str Str) :
    (((judgeByRules response skill).verdict = Verdict.PARTIAL
        ∨ (judgeByRules response skill).confidence < 0.7) →
      judgeHybrid response skill JudgeMode.hybrid chat
        = ({ judgeByLLM chat with ruleAnnotation := some (judgeByRules response skill) }, 1))
    ∧ (¬((judgeByRules response skill).verdict = Verdict.PARTIAL
        ∨ (judgeByRules response skill).confidence < 0.7) →
      judgeHybrid response skill JudgeMode.hybrid chat
        = (toHybrid (judgeByRules response skill), 0))
    ∧ ((judgeByRules response skill).verdict = Verdict.YES →
        0.7 ≤ (judgeByRules response skill).confidence →
      judgeHybrid response skill JudgeMode.hybrid chat
        = (toHybrid (judgeByRules response skill), 0)) := by
  refine ⟨?_, ?_, ?_⟩
  · intro h
    simp only [judgeHybrid]
    rw [if_pos h]
  · intro h
    simp only [judgeHybrid]
    rw [if_neg h]
  · intro hv hc
    have hcond : ¬((judgeByRules response skill).verdict = Verdict.PARTIAL
        ∨ (judgeByRules response skill).confidence < 0.7) := by
      rintro (h | h)
      · rw [hv] at h; exact Verdict.noConfusion h
      · exact absurd h (not_lt.mpr hc)
    simp only [judgeHybrid]
    rw [if_neg hcond]

theorem judgeByRules_resp6 :
    (judgeByRules resp6 skill6).verdict = Verdict.YES
    ∧ (judgeByRules resp6 skill6).confidence = 0.9 := by
  have hm : mentionsSkill resp6 skill6 = true := by decide
  have ha : hasActionLanguage resp6 = true := by decide
  have hmk : (matchedKeywords resp6 skill6).length = 3 := by decide
  have hkw : (ruleKeywords skill6).length = 5 := by decide
  have hlen : ¬(100 < resp6.length) := by decide
  have hmr : matchRatio resp6 skill6 = 3 / 5 := by
    unfold matchRatio
    rw [hmk, hkw]
    norm_num
  have hrc : ruleConfidence resp6 skill6 = 0.9 := by
    unfold ruleConfidence
    rw [hmr, if_pos hm, if_pos (by norm_num : (0.3:ℚ) < 3 / 5), if_pos ha, if_neg hlen]
    norm_num
  constructor
  · simp only [judgeByRules, hrc]
    rw [if_pos (by norm_num : (0.5:ℚ) ≤ 0.9)]
  · simp only [judgeByRules, hrc]
    exact min_eq_right (by norm_num)

/-- C6 witness: a rule verdict of YES with confidence 0.9 returns unchanged
with zero model-judge calls, even though the provider would have failed. -/
theorem judgeHybrid_escalation_witness :
    (judgeByRules resp6 skill6).verdict = Verdict.YES
    ∧ 0.7 ≤ (judgeByRules resp6 skill6).confidence
    ∧ judgeHybrid resp6 skill6 JudgeMode.hybrid (Except.error errNet)
        = (toHybrid (judgeByRules resp6 skill6), 0) := by
  obtain ⟨hv, hc⟩ := judgeByRules_resp6
  have hge : (0.7:ℚ) ≤ (judgeByRules resp6 skill6).confidence := by rw [hc]; norm_num
  exact ⟨hv, hge, (judgeHybrid_escalation resp6 skill6 (Except.error errNet)).2.2 hv hge⟩

theorem judgeByRules_resp7 :
    (judgeByRules resp7 skill7).verdict = Verdict.NO
    ∧ (judgeByRules resp7 skill7).confidence = 0 := by
  have hm : mentionsSkill resp7 skill7 = false := by decide
  have ha : hasActionLanguage resp7 = false := by decide
  have hmk : (matchedKeywords resp7 skill7).length = 0 := by decide
  have hkw : (ruleKeywords skill7).length = 5 := by decide
  have hlen : ¬(100 < resp7.length) := by decide
  have hmr : matchRatio resp7 skill7 = 0 := by
    unfold matchRatio
    rw [hmk, hkw]
    norm_num
  have hrc : ruleConfidence resp7 skill7 = 0 := by
    unfold ruleConfidence
    rw [hmr, hm, ha]
    rw [if_neg (by simp), if_neg (by norm_num : ¬((0.3:ℚ) < 0)), if_neg (by simp),
      if_neg hlen]
    norm_num
  constructor
  · simp only [judgeByRules, hrc]
    rw [if_neg (by norm_num : ¬((0.5:ℚ) ≤ 0)), if_neg (by norm_num : ¬((0.3:ℚ) ≤ 0))]
  · simp only [judgeByRules, hrc]
    exact min_eq_right (by norm_num)

/-- C7 counterexample: when the escalated model-judge provider call fails,
the hybrid judgment is the model judge's UNKNOWN result (method llm) with the
rule result attached as an annotation — not the rule-based result, and the
llmError field of the dead fallback branch stays empty. -/
theorem judgeHybrid_failure_is_llm_result :
    (judgeByRules resp7 skill7).confidence < 0.7
    ∧ (judgeHybrid resp7 skill7 JudgeMode.hybrid (Except.error errNet)).1.method = Method.llm
    ∧ (judgeHybrid resp7 skill7 JudgeMode.hybrid (Except.error errNet)).1.verdict
        = Verdict.UNKNOWN
    ∧ (judgeHybrid resp7 skill7 JudgeMode.hybrid (Except.error errNet)).1.verdict
        ≠ (judgeByRules resp7 skill7).verdict
    ∧ (judgeHybrid resp7 skill7 JudgeMode.hybrid (Except.error errNet)).1.llmErrMsg = none := by
  obtain ⟨hv, hc⟩ := judgeByRules_resp7
  have hlt : (judgeByRules resp7 skill7).confidence < 0.7 := by rw [hc]; norm_num
  have hrun : judgeHybrid resp7 skill7 JudgeMode.hybrid (Except.error errNet)
      = ({ verdict := Verdict.UNKNOWN, confidence := 0, method := Method.llm,
           errMsg := some errNet, ruleAnnotation := some (judgeByRules resp7 skill7),
           llmErrMsg := none }, 1) := by
    simp only [judgeHybrid]
    rw [if_pos (Or.inr hlt)]
    rfl
  refine ⟨hlt, by rw [hrun], by rw [hrun], ?_, by rw [hrun]⟩
  rw [hrun, hv]
  simp

/-- C7 amended: for every escalated judgment whose model-judge provider call
fails, the hybrid judgment returns the model judge's UNKNOWN result
(confidence 0, method llm, the error message attached) annotated with the
rule result; the rule-result fallback branch of the source is unreachable
because judgeByLLM catches the provider failure itself. -/
theorem judgeHybrid_provider_failure (response : Str) (skill : Skill) (e : Str)
    (hesc : (judgeByRules response skill).verdict = Verdict.PARTIAL
      ∨ (judgeByRules response skill).confidence < 0.7) :
    judgeHybrid response skill JudgeMode.hybrid (Except.error e)
      = ({ verdict := Verdict.UNKNOWN, confidence := 0, method := Method.llm,
           errMsg := some e, ruleAnnotation := some (judgeByRules response skill),
           llmErrMsg := none }, 1) := by
  simp only [judgeHybrid]
  rw [if_pos hesc]
  rfl

/-- C7 amended witness: the NO/confidence-0 rule result escalates, the
provider fails, and the UNKNOWN llm result annotated with the rule result
comes back. -/
theorem judgeHybrid_provider_failure_witness :
    ((judgeByRules resp7 skill7).verdict = Verdict.PARTIAL
      ∨ (judgeByRules resp7 skill7).confidence < 0.7)
    ∧ judgeHybrid resp7 skill7 JudgeMode.hybrid (Except.error errNet)
        = ({ verdict := Verdict.UNKNOWN, confidence := 0, method := Method.llm,
             errMsg := some errNet, ruleAnnotation := some (judgeByRules resp7 skill7),
             llmErrMsg := none }, 1) := by
  have hesc : (judgeByRules resp7 skill7).verdict = Verdict.PARTIAL
      ∨ (judgeByRules resp7 skill7).confidence < 0.7 :=
    Or.inr (by rw [judgeByRules_resp7.2]; norm_num)
  exact ⟨hesc, judgeHybrid_provider_failure resp7 skill7 errNet hesc⟩

-- ===========================================================================
-- Claim C8: the orchestrator is resilient to per-prompt provider errors
-- ===========================================================================

theorem runSmokeTestsLoop_length (skill : Skill) (mode : JudgeMode)
    (inputs : List SmokeInput) :
    (runSmokeTestsLoop skill mode inputs).1.length = inputs.length := by
  induction inputs with
  | nil => rfl
  | cons a l ih => simp [runSmokeTestsLoop, ih]

theorem runSmokeTestsLoop_pass (skill : Skill) (mode : JudgeMode)
    (inputs : List SmokeInput) :
    (runSmokeTestsLoop skill mode inputs).2
      = ((runSmokeTestsLoop skill mode inputs).1.filter
          (fun t => t.verdict == Verdict.YES)).length := by
  induction inputs with
  | nil => rfl
  | cons a l ih =>
    rcases a with ⟨p, co, jc⟩
    cases co with
    | ok r =>
      simp only [runSmokeTestsLoop, processPrompt]
      by_cases hv : (judgeHybrid r skill mode jc).1.verdict = Verdict.YES
      · simp [List.filter_cons, hv, ih]
        omega
      · simp [List.filter_cons, hv, ih]
    | error e =>
      simp [runSmokeTestsLoop, processPrompt, List.filter_cons, ih]

theorem runSmokeTestsLoop_error_entry (skill : Skill) (mode : JudgeMode) :
    ∀ (inputs : List SmokeInput) (i : Nat) (p e : Str) (jc : Except Str Str),
      inputs[i]? = some (p, Except.error e, jc) →
      (runSmokeTestsLoop skill mode inputs).1[i]? = some
        ({ prompt := p, response_preview := none, verdict := Verdict.ERROR,
           confidence := none, method := none, errMsg := some e } : TestEntry) := by
  intro inputs
  induction inputs with
  | nil => intro i p e jc h; simp at h
  | cons a l ih =>
    intro i p e jc h
    cases i with
    | zero =>
      simp only [List.getElem?_cons_zero, Option.some_inj] at h
      subst h
      simp [runSmokeTestsLoop, processPrompt]
    | succ n =>
      simp only [List.getElem?_cons_succ] at h
      simpa [runSmokeTestsLoop] using ih n p e jc h

/-- C8: for every smoke-test run, a provider error on any prompt is recorded
as a test entry with verdict ERROR carrying the error text while the loop
continues, so the report still has one test per prompt; pass_count counts
exactly the YES verdicts, and call_success_rate is pass_count / N rounded to
two decimals. -/
theorem runSmokeTest_error_resilient (skill : Skill) (mode : JudgeMode)
    (inputs : List SmokeInput) (hne : inputs ≠ []) :
    (runSmokeTest skill mode inputs).test_count = inputs.length
    ∧ (runSmokeTest skill mode inputs).tests.length = inputs.length
    ∧ (∀ (i : Nat) (p e : Str) (jc : Except Str Str),
        inputs[i]? = some (p, Except.error e, jc) →
        (runSmokeTest skill mode inputs).tests[i]? = some
          ({ prompt := p, response_preview := none, verdict := Verdict.ERROR,
             confidence := none, method := none, errMsg := some e } : TestEntry))
    ∧ (runSmokeTest skill mode inputs).pass_count
        = ((runSmokeTest skill mode inputs).tests.filter
            (fun t => t.verdict == Verdict.YES)).length
    ∧ (runSmokeTest skill mode inputs).call_success_rate
        = round2 (((runSmokeTest skill mode inputs).pass_count : ℚ) / (inputs.length : ℚ)) := by
  refine ⟨rfl, runSmokeTestsLoop_length skill mode inputs, ?_,
    runSmokeTestsLoop_pass skill mode inputs, rfl⟩
  intro i p e jc h
  exact runSmokeTestsLoop_error_entry skill mode inputs i p e jc h

/-- C8 witness: the five-prompt run whose third provider call raises a
network error still yields five test entries, the third being the ERROR
record with the error text. -/
theorem runSmokeTest_error_resilient_witness :
    (runSmokeTest skill9 JudgeMode.rule ins5).test_count = 5
    ∧ (runSmokeTest skill9 JudgeMode.rule ins5).tests[2]? = some
        { prompt := prompt3, response_preview := none, verdict := Verdict.ERROR,
          confidence := none, method := none, errMsg := some errNet } := by
  have h := runSmokeTest_error_resilient skill9 JudgeMode.rule ins5
    (List.cons_ne_nil _ _)
  refine ⟨?_, h.2.2.1 2 prompt3 errNet jcDummy rfl⟩
  rw [h.1]
  rfl

end Ontos
